import Mathlib

/-!
Shallow embedding of the tsdb-tools InfluxDB converter (`src/influx.rs`).

Two pipelines are modelled:

* the CSV → line-protocol encoder (`LineWriter::from_csv_file` and
  `LineWriter::from_csv_dir`), and
* the line-protocol → CSV encoder (`line_protocol_to_csv`).

External collaborators (the `csv` crate, the `influxdb_line_protocol`
parser, `chrono` timestamp formatting, and Rust's `f64` parsing and
`Display`) are modelled abstractly: the embedding is parameterised over
them, mirroring the fact that `src/influx.rs` only consumes their
results.  Machine integers (`i64`) are modelled as `Int` with explicit
wraparound modulo 2^64 where overflow matters.
-/

set_option autoImplicit false

namespace Influx

/-- Wraparound of an unbounded integer into the `i64` range
`[-2^63, 2^63)`, the release-profile semantics of Rust `i64`
multiplication overflow (`ts * 1000 * 1000` in `from_csv_file`). -/
def wrap64 (x : Int) : Int :=
  (x + 2 ^ 63) % 2 ^ 64 - 2 ^ 63

/-- Value of a list of decimal digit characters, `none` if the list is
empty or contains a non-digit. -/
def digitsVal : List Char → Option Nat
  | [] => none
  | [c] => if c.isDigit then some (c.toNat - 48) else none
  | c :: cs =>
    if c.isDigit then
      (digitsVal cs).map (fun n => (c.toNat - 48) * 10 ^ cs.length + n)
    else none

/-- Model of Rust `str::parse::<i64>`: an optional sign followed by one
or more decimal digits, rejected when the value falls outside the `i64`
range. -/
def parseI64 (s : String) : Option Int :=
  match s.data with
  | '+' :: cs =>
    (digitsVal cs).bind fun n =>
      if n < 2 ^ 63 then some (n : Int) else none
  | '-' :: cs =>
    (digitsVal cs).bind fun n =>
      if n ≤ 2 ^ 63 then some (-(n : Int)) else none
  | cs =>
    (digitsVal cs).bind fun n =>
      if n < 2 ^ 63 then some (n : Int) else none

/-- Configuration carried by `LineWriter`: the timestamp column name and
the set of tag column names (a `HashSet<String>` in the source, modelled
as a list queried only through membership). -/
structure LineConfig where
  timestamp : String
  tags : List String
  deriving Repr, DecidableEq

/-- Tag tokens of one row: the source walks `headers.zip(record)` and
appends `,{name}={value}` for every column whose name is in the tag
set (`from_csv_file`, first loop). -/
def tagsAux (cfg : LineConfig) : List (String × String) → String
  | [] => ""
  | p :: rest =>
    (if cfg.tags.contains p.1 then "," ++ p.1 ++ "=" ++ p.2 else "")
      ++ tagsAux cfg rest

/-- Tag segment of one row; the source skips the loop entirely when the
tag set is empty. -/
def tagsPart (cfg : LineConfig) (pairs : List (String × String)) : String :=
  if cfg.tags.isEmpty then "" else tagsAux cfg pairs

/-- One field token.  `floatFmt` models the composition of Rust
`str::parse::<f64>` with `f64` `Display`: `some s` when the cell parses
as a float that prints as `s`, `none` when the parse fails.  A numeric
cell renders as `{name}={float}`, any other cell as `{name}="{value}"`
(`from_csv_file`, lines 139-143). -/
def fieldTok (floatFmt : String → Option String) (p : String × String) : String :=
  match floatFmt p.2 with
  | some s => p.1 ++ "=" ++ s
  | none => p.1 ++ "=\"" ++ p.2 ++ "\""

/-- Field tokens of one row: a column is a field when its name is
neither in the tag set nor equal to the timestamp name; the first field
is preceded by a space, later ones by a comma (`from_csv_file`, second
loop, `first_field` flag). -/
def fieldsAux (floatFmt : String → Option String) (cfg : LineConfig) :
    Bool → List (String × String) → String
  | _, [] => ""
  | first, p :: rest =>
    if !cfg.tags.contains p.1 && p.1 != cfg.timestamp then
      (if first then " " else ",") ++ fieldTok floatFmt p
        ++ fieldsAux floatFmt cfg false rest
    else
      fieldsAux floatFmt cfg first rest

/-- Field segment of one row. -/
def fieldsPart (floatFmt : String → Option String) (cfg : LineConfig)
    (pairs : List (String × String)) : String :=
  fieldsAux floatFmt cfg true pairs

/-- Timestamp segment of one row: the source scans `headers.zip(record)`
for the first column whose name equals the timestamp name (and breaks),
parses the cell as `i64` (`unwrap` panics on failure, modelled as
`none`), multiplies by 1000 * 1000 with `i64` wraparound, and appends
` {ts}`.  No match appends nothing (`from_csv_file`, third loop). -/
def tsSegment (cfg : LineConfig) (pairs : List (String × String)) : Option String :=
  match pairs.find? (fun p => p.1 == cfg.timestamp) with
  | none => some ""
  | some p =>
    (parseI64 p.2).map fun m => " " ++ toString (wrap64 (m * 1000000))

/-- Measurement, tag and field segments of one row, in source append
order. -/
def lineLead (floatFmt : String → Option String) (cfg : LineConfig)
    (tableName : String) (pairs : List (String × String)) : String :=
  tableName ++ tagsPart cfg pairs ++ fieldsPart floatFmt cfg pairs

/-- One protocol line for one CSV record: measurement, tags, fields,
timestamp, newline (`from_csv_file` loop body).  `none` models the
panic when the timestamp cell fails to parse as `i64`. -/
def buildLine (floatFmt : String → Option String) (cfg : LineConfig)
    (tableName : String) (headers record : List String) : Option String :=
  (tsSegment cfg (headers.zip record)).map fun ts =>
    lineLead floatFmt cfg tableName (headers.zip record) ++ ts ++ "\n"

/-- Sample instantiation of the abstract float formatter, used to
evaluate the encoder at concrete inputs: on strings of decimal digits
(whose values are exactly representable, so Rust `parse::<f64>` followed
by `Display` is the identity on their canonical form) it returns the
canonical decimal form; every other string is treated as non-numeric. -/
def intFloatFmt (s : String) : Option String :=
  (digitsVal s.data).map toString

/-- Characters after the last `/` of a path. -/
def lastComponent (cs : List Char) : List Char :=
  cs.foldl (fun acc c => if c = '/' then [] else acc ++ [c]) []

/-- Characters before the last `.` of a file name. -/
def beforeLastDot (cs : List Char) : List Char :=
  ((cs.reverse.dropWhile fun c => c != '.').drop 1).reverse

/-- Model of `Path::file_stem` composed with `to_str` for UTF-8 paths
with `/` separators: final path component with the portion after its
last `.` removed (a name whose only `.` is its leading character is
kept whole). -/
def fileStem (p : String) : String :=
  let name := lastComponent p.data
  if (name.drop 1).contains '.' then ⟨beforeLastDot name⟩ else ⟨name⟩

/-- Byte-order comparison of two character lists (UTF-8 byte order and
codepoint order agree). -/
def charsLe : List Char → List Char → Bool
  | [], _ => true
  | _ :: _, [] => false
  | a :: as, b :: bs =>
    if a.toNat < b.toNat then true
    else if b.toNat < a.toNat then false
    else charsLe as bs

/-- Model of Rust's `Ord` on `String` (lexicographic byte order). -/
def strLe (a b : String) : Bool :=
  charsLe a.data b.data

/-- Insertion into a `strLe`-sorted list. -/
def insertLe (a : String) : List String → List String
  | [] => [a]
  | b :: bs => if strLe a b then a :: b :: bs else b :: insertLe a bs

/-- Sorting model for `Vec::sort_unstable` on path strings
(`from_csv_dir`): any comparison sort agrees with insertion sort on the
total byte order. -/
def sortPaths (l : List String) : List String :=
  l.foldr insertLe []

/-- Protocol lines of a list of CSV records, in order; the first
failing record aborts the conversion (`unwrap` panics, modelled by
`Option`). -/
def linesOfRecords (floatFmt : String → Option String) (cfg : LineConfig)
    (tableName : String) (headers : List String) :
    List (List String) → Option (List String)
  | [] => some []
  | r :: rs =>
    (buildLine floatFmt cfg tableName headers r).bind fun l =>
      (linesOfRecords floatFmt cfg tableName headers rs).map fun rest => l :: rest

/-- Conversion of one CSV file (`from_csv_file`): every record becomes
one protocol line with the file stem as measurement.  `content` maps a
path to the file's header row and data records, the capability the
`csv` crate provides. -/
def from_csv_file (floatFmt : String → Option String) (cfg : LineConfig)
    (content : String → List String × List (List String)) (path : String) :
    Option (List String) :=
  linesOfRecords floatFmt cfg (fileStem path) (content path).1 (content path).2

/-- Sequential conversion of a list of files, concatenating their
output lines in order. -/
def processFiles (floatFmt : String → Option String) (cfg : LineConfig)
    (content : String → List String × List (List String)) :
    List String → Option (List String)
  | [] => some []
  | p :: ps =>
    (from_csv_file floatFmt cfg content p).bind fun ls =>
      (processFiles floatFmt cfg content ps).map fun rest => ls ++ rest

/-- Directory conversion (`from_csv_dir`): collect the entry paths in
the order the filesystem lists them, sort them, then convert each file
in sorted order into one output stream. -/
def from_csv_dir (floatFmt : String → Option String) (cfg : LineConfig)
    (content : String → List String × List (List String))
    (entries : List String) : Option (List String) :=
  processFiles floatFmt cfg content (sortPaths entries)

/-- Model of `influxdb_line_protocol::FieldValue`, the decoded field
value of the external parser; `f64` payloads are abstracted by `F`. -/
inductive FieldValue (F : Type) where
  | i64 (v : Int)
  | u64 (v : Nat)
  | f64 (v : F)
  | str (v : String)
  | boolean (v : Bool)
  deriving Repr, DecidableEq

/-- Model of the `Value` enum of `src/influx.rs`; `f64` payloads are
abstracted by `F`. -/
inductive Value (F : Type) where
  | int64 (v : Int)
  | uint64 (v : Nat)
  | float64 (v : F)
  | string (v : String)
  | boolean (v : Bool)
  deriving Repr, DecidableEq

/-- The `From<FieldValue> for Value` conversion: each parser case maps
to the matching variant 1:1. -/
def valueOfField {F : Type} : FieldValue F → Value F
  | .i64 v => .int64 v
  | .u64 v => .uint64 v
  | .f64 v => .float64 v
  | .str v => .string v
  | .boolean v => .boolean v

/-- The `From<EscapedStr> for Value` conversion: a decoded tag value is
always a string. -/
def valueOfTag {F : Type} (s : String) : Value F :=
  Value.string s

/-- CSV cell text of a `Value`, as the `csv` serializer renders it;
the abstract `f64` payload is rendered by `fmtF` (Rust `Display`). -/
def Value.toCell {F : Type} (fmtF : F → String) : Value F → String
  | .int64 v => toString v
  | .uint64 v => toString v
  | .float64 v => fmtF v
  | .string v => v
  | .boolean v => toString v

/-- Model of one `ParsedLine` of the external line-protocol parser:
measurement, optional tag set, field set, optional nanosecond
timestamp. -/
structure Point (F : Type) where
  measurement : String
  tag_set : Option (List (String × String))
  field_set : List (String × FieldValue F)
  timestamp : Option Int
  deriving Repr, DecidableEq

/-- Cells pushed for one decoded point (`line_protocol_to_csv` loop
body): tag values, then field values, then — when a timestamp is
present — its rendering by `tsFmt`, the model of
`Utc.timestamp_nanos(..).to_rfc3339()`. -/
def pointCells {F : Type} (tsFmt : Int → String) (p : Point F) : List (Value F) :=
  (match p.tag_set with
    | none => []
    | some ts => ts.map fun kv => valueOfTag kv.2)
    ++ p.field_set.map (fun kv => valueOfField kv.2)
    ++ (match p.timestamp with
      | none => []
      | some t => [Value.string (tsFmt t)])

/-- The CSV record built from the parse results of one physical input
line: cells of all decoded points in order, `none` when any parse
result is an error (the `line.unwrap()` panic aborts before the record
is serialized). -/
def rowOfLine {F E : Type} (tsFmt : Int → String) :
    List (Except E (Point F)) → Option (List (Value F))
  | [] => some []
  | .error _ :: _ => none
  | .ok p :: rest =>
    (rowOfLine tsFmt rest).map fun cells => pointCells tsFmt p ++ cells

/-- The whole `line_protocol_to_csv` run over the physical input lines:
one serialized record per line, in input order; the first line whose
parse results contain an error aborts the run, producing no further
records.  Returns the serialized records and whether the run completed. -/
def toCsvRun {F E : Type} (tsFmt : Int → String)
    (parse : String → List (Except E (Point F))) :
    List String → List (List (Value F)) × Bool
  | [] => ([], true)
  | l :: rest =>
    match rowOfLine tsFmt (parse l) with
    | none => ([], false)
    | some r =>
      let o := toCsvRun tsFmt parse rest
      (r :: o.1, o.2)

/-- Sample decoded point used to evaluate the Line→CSV pipeline. -/
def samplePoint : Point Unit :=
  ⟨"cpu", some [("host", "h0")], [("u", FieldValue.i64 58)], some 0⟩

/-- Sample parser whose every physical line decodes to `samplePoint`. -/
def sampleParse : String → List (Except Unit (Point Unit)) :=
  fun _ => [Except.ok samplePoint]

/-- Sample parser whose line `ok` decodes cleanly to zero points and
whose every other line yields a parse error. -/
def parseOkOrErr : String → List (Except Unit (Point Unit)) :=
  fun l => if l = "ok" then [] else [Except.error ()]

/-- Sample one-field point `u=1`. -/
def pointA : Point Unit := ⟨"c", none, [("u", FieldValue.i64 1)], none⟩

/-- Sample one-field point `v=2`. -/
def pointB : Point Unit := ⟨"c", none, [("v", FieldValue.i64 2)], none⟩

/-- Sample parser whose line `a` decodes to two points and whose every
other line decodes to zero points. -/
def parseTwoPoints : String → List (Except Unit (Point Unit)) :=
  fun l => if l = "a" then [Except.ok pointA, Except.ok pointB] else []

/-- Decoded points of `parseTwoPoints`, per line. -/
def ptsTwoPoints : String → List (Point Unit) :=
  fun l => if l = "a" then [pointA, pointB] else []

/-! Helper lemmas. -/

/-- Wraparound is the identity on values inside the `i64` range. -/
theorem wrap64_eq_self {x : Int} (h1 : -(2 ^ 63) ≤ x) (h2 : x < 2 ^ 63) :
    wrap64 x = x := by
  have e1 : (2 : Int) ^ 63 = 9223372036854775808 := by norm_num
  have e2 : (2 : Int) ^ 64 = 18446744073709551616 := by norm_num
  unfold wrap64
  rw [e1, e2] at *
  omega

/-- When every column is a tag or the timestamp, the field segment is
empty. -/
theorem fieldsAux_eq_empty (ff : String → Option String) (cfg : LineConfig)
    (pairs : List (String × String))
    (h : ∀ p ∈ pairs, (cfg.tags.contains p.1 || p.1 == cfg.timestamp) = true) :
    ∀ first, fieldsAux ff cfg first pairs = "" := by
  induction pairs with
  | nil => intro first; rfl
  | cons p rest ih =>
    intro first
    have hp := h p (List.mem_cons_self p rest)
    have hcond : (!cfg.tags.contains p.1 && p.1 != cfg.timestamp) = false := by
      cases hc : cfg.tags.contains p.1 <;> cases hb : p.1 == cfg.timestamp <;>
        simp_all [bne]
    rw [fieldsAux, hcond]
    exact ih (fun q hq => h q (List.mem_cons_of_mem p hq)) first

/-- A physical line all of whose parse results are ok produces a single
record holding the cells of all its points, in order. -/
theorem rowOfLine_map_ok {F E : Type} (tsFmt : Int → String) :
    ∀ ps : List (Point F),
      rowOfLine (E := E) tsFmt (ps.map Except.ok)
        = some ((ps.map (pointCells tsFmt)).flatten) := by
  intro ps
  induction ps with
  | nil => rfl
  | cons p rest ih => simp [rowOfLine, ih]

/-- A parse error among a physical line's results aborts its record. -/
theorem rowOfLine_none_of_mem_error {F E : Type} (tsFmt : Int → String)
    {e : E} : ∀ {results : List (Except E (Point F))},
      Except.error e ∈ results → rowOfLine tsFmt results = none := by
  intro results h
  induction results with
  | nil => cases h
  | cons r rest ih =>
    cases r with
    | error _ => rfl
    | ok p =>
      have : Except.error e ∈ rest := by
        rcases List.mem_cons.mp h with h' | h'
        · cases h'
        · exact h'
      simp [rowOfLine, ih this]

/-- Every emitted protocol line starts with the measurement name. -/
theorem buildLine_measurement_lead (ff : String → Option String)
    (cfg : LineConfig) (t : String) (headers record : List String)
    {s : String} (h : buildLine ff cfg t headers record = some s) :
    ∃ rest, s = t ++ rest := by
  rcases hts : tsSegment cfg (headers.zip record) with _ | ts
  · rw [buildLine, hts] at h; cases h
  · rw [buildLine, hts] at h
    refine ⟨tagsPart cfg (headers.zip record)
      ++ fieldsPart ff cfg (headers.zip record) ++ ts ++ "\n", ?_⟩
    have := Option.some.inj h
    rw [← this]
    simp [lineLead, String.append_assoc]

/-- Every line produced from a record list comes from one record. -/
theorem linesOfRecords_mem (ff : String → Option String) (cfg : LineConfig)
    (t : String) (headers : List String) :
    ∀ (rs : List (List String)) (ls : List String) (l : String),
      linesOfRecords ff cfg t headers rs = some ls → l ∈ ls →
        ∃ r ∈ rs, buildLine ff cfg t headers r = some l := by
  intro rs
  induction rs with
  | nil =>
    intro ls l h hmem
    cases Option.some.inj h
    cases hmem
  | cons r rest ih =>
    intro ls l h hmem
    rcases hb : buildLine ff cfg t headers r with _ | bl
    · rw [linesOfRecords, hb] at h; cases h
    · rcases hr : linesOfRecords ff cfg t headers rest with _ | rls
      · rw [linesOfRecords, hb, hr] at h; cases h
      · rw [linesOfRecords, hb, hr] at h
        cases Option.some.inj h
        rcases List.mem_cons.mp hmem with h' | h'
        · exact ⟨r, List.mem_cons_self r rest, by rw [hb, h']⟩
        · rcases ih rls l hr h' with ⟨r', hr', hl'⟩
          exact ⟨r', List.mem_cons_of_mem r hr', hl'⟩

end Influx

namespace Influx

/-! Claim theorems. -/

/-- C1, counterexample: with timestamp column name `foo` and tag set
`{foo}`, the column `foo` is emitted both as the tag token `,foo=7` and
as the timestamp token ` 7000000` — it does not contribute only as a
tag, refuting the exactly-one-class claim. -/
theorem c1_counterexample_tag_column_also_timestamp :
    buildLine intFloatFmt ⟨"foo", ["foo"]⟩ "m" ["foo", "v"] ["7", "1"]
        = some "m,foo=7 v=1 7000000\n"
      ∧ buildLine intFloatFmt ⟨"foo", ["foo"]⟩ "m" ["foo", "v"] ["7", "1"]
        ≠ some "m,foo=7 v=1\n" := by
  constructor
  · rfl
  · decide

/-- C1, amended: tag-set membership and timestamp-name equality are
independent checks.  A column in the tag set is emitted as a tag and
excluded from the fields; a column neither in the tag set nor named
like the timestamp is a field; but the timestamp token is taken from
the first column whose name equals the timestamp name regardless of
tag membership, so a column that is both yields a tag token and the
timestamp token. -/
theorem c1_amended_tag_and_timestamp_both_emitted
    (ff : String → Option String) (tsName f t v fv s : String) (m : Int)
    (hf : f ≠ tsName)
    (hff : ff fv = some s) (hparse : parseI64 v = some m) :
    buildLine ff ⟨tsName, [tsName]⟩ t [tsName, f] [v, fv]
      = some (t ++ "," ++ tsName ++ "=" ++ v ++ " " ++ f ++ "=" ++ s
          ++ " " ++ toString (wrap64 (m * 1000000)) ++ "\n") := by
  simp [buildLine, tsSegment, lineLead, tagsPart, tagsAux, fieldsPart,
    fieldsAux, fieldTok, hf, hff, hparse, List.find?, bne,
    String.append_assoc, String.append_empty, String.empty_append]

/-- Witness for the amended C1 theorem at a concrete input. -/
theorem c1_witness :
    (("v" == "foo") = false ∧ intFloatFmt "1" = some "1"
        ∧ parseI64 "7" = some 7)
      ∧ buildLine intFloatFmt ⟨"foo", ["foo"]⟩ "m" ["foo", "v"] ["7", "1"]
        = some "m,foo=7 v=1 7000000\n" := by
  refine ⟨⟨by decide, by decide, by decide⟩, ?_⟩
  have h := c1_amended_tag_and_timestamp_both_emitted intFloatFmt "foo" "v"
    "m" "7" "1" "1" 7 (by decide) (by decide) (by decide)
  rw [h]
  rfl

/-- C2, counterexample: a row in which every column is a tag or the
timestamp (zero field columns) does not fail — the encoder emits the
line `m,host=a 7000000` with no field set instead of reporting an
error. -/
theorem c2_counterexample_zero_field_row_succeeds :
    ((["host", "timestamp"].zip ["a", "7"]).all
        fun p => (["host"] : List String).contains p.1 || p.1 == "timestamp")
      ∧ buildLine intFloatFmt ⟨"timestamp", ["host"]⟩ "m"
          ["host", "timestamp"] ["a", "7"]
        = some "m,host=a 7000000\n" := by
  constructor
  · decide
  · rfl

/-- C2, amended: a row with zero field columns is not rejected.  The
field segment is empty and the encoder still produces a line of
measurement, tags and timestamp whenever the timestamp cell parses;
no zero-field check exists. -/
theorem c2_amended_zero_field_row_emits_line
    (ff : String → Option String) (cfg : LineConfig) (t : String)
    (headers record : List String)
    (h : ∀ p ∈ headers.zip record,
      (cfg.tags.contains p.1 || p.1 == cfg.timestamp) = true) :
    buildLine ff cfg t headers record
      = (tsSegment cfg (headers.zip record)).map
          fun ts => t ++ tagsPart cfg (headers.zip record) ++ ts ++ "\n" := by
  unfold buildLine lineLead fieldsPart
  rw [fieldsAux_eq_empty ff cfg (headers.zip record) h true,
    String.append_empty]

/-- Witness for the amended C2 theorem at a concrete input. -/
theorem c2_witness :
    (∀ p ∈ (["host", "timestamp"].zip ["a", "7"]),
        ((["host"] : List String).contains p.1 || p.1 == "timestamp") = true)
      ∧ buildLine intFloatFmt ⟨"timestamp", ["host"]⟩ "m"
          ["host", "timestamp"] ["a", "7"]
        = (tsSegment ⟨"timestamp", ["host"]⟩
              (["host", "timestamp"].zip ["a", "7"])).map
            fun ts => "m" ++ tagsPart ⟨"timestamp", ["host"]⟩
              (["host", "timestamp"].zip ["a", "7"]) ++ ts ++ "\n" :=
  ⟨by decide,
    c2_amended_zero_field_row_emits_line intFloatFmt ⟨"timestamp", ["host"]⟩
      "m" ["host", "timestamp"] ["a", "7"] (by decide)⟩

/-- C5, counterexample: the timestamp cell `4611686018427387904` (which
parses as the valid `i64` 2^62) is emitted as `0`, because the
millisecond-to-nanosecond multiplication wraps modulo 2^64
(2^62 * 10^6 = 250000 * 2^64); the emitted value is not m * 1000000. -/
theorem c5_counterexample_overflow_wraps :
    parseI64 "4611686018427387904" = some 4611686018427387904
      ∧ buildLine intFloatFmt ⟨"timestamp", []⟩ "m" ["timestamp"]
          ["4611686018427387904"]
        = some "m 0\n"
      ∧ (0 : Int) ≠ 4611686018427387904 * 1000000 := by
  refine ⟨by decide, rfl, by decide⟩

/-- C5, amended: whenever the first timestamp-named column's cell
parses as an `i64` `m` and the product m * 1,000,000 itself lies in the
`i64` range, the emitted timestamp token is exactly ` m * 1000000`
(factor of exactly one million, milliseconds to nanoseconds); outside
that range the 64-bit product wraps. -/
theorem c5_amended_millis_times_million
    (ff : String → Option String) (cfg : LineConfig) (t : String)
    (headers record : List String) (nm cell : String) (m : Int)
    (hfind : (headers.zip record).find? (fun p => p.1 == cfg.timestamp)
      = some (nm, cell))
    (hparse : parseI64 cell = some m)
    (hlo : -(2 ^ 63) ≤ m * 1000000) (hhi : m * 1000000 < 2 ^ 63) :
    buildLine ff cfg t headers record
      = some (lineLead ff cfg t (headers.zip record)
          ++ " " ++ toString (m * 1000000) ++ "\n") := by
  unfold buildLine tsSegment
  rw [hfind]
  simp [hparse, wrap64_eq_self hlo hhi, String.append_assoc]

/-- Witness for the amended C5 theorem: cell `1451606400000` produces
the timestamp `1451606400000000000`. -/
theorem c5_witness :
    ((["timestamp"].zip ["1451606400000"]).find?
        (fun p => p.1 == "timestamp") = some ("timestamp", "1451606400000")
      ∧ parseI64 "1451606400000" = some 1451606400000)
      ∧ buildLine intFloatFmt ⟨"timestamp", []⟩ "m" ["timestamp"]
          ["1451606400000"]
        = some "m 1451606400000000000\n" := by
  refine ⟨⟨by decide, by decide⟩, ?_⟩
  have h := c5_amended_millis_times_million intFloatFmt ⟨"timestamp", []⟩
    "m" ["timestamp"] ["1451606400000"] "timestamp" "1451606400000"
    1451606400000 (by decide) (by decide) (by decide) (by decide)
  rw [h]
  rfl

/-- C3: a physical line that decodes to exactly one point with T tags,
F fields and a timestamp produces exactly one CSV record, whose cells
are the tag values in declared order, then the field values in declared
order, then the timestamp cell, for a total of T + F + 1 cells. -/
theorem c3_row_shape {F E : Type} (tsFmt : Int → String)
    (parse : String → List (Except E (Point F))) (l meas : String)
    (tgs : List (String × String)) (flds : List (String × FieldValue F))
    (ts : Int)
    (hp : parse l = [Except.ok ⟨meas, some tgs, flds, some ts⟩]) :
    toCsvRun tsFmt parse [l]
        = ([(tgs.map fun kv : String × String => valueOfTag kv.2)
            ++ (flds.map fun kv : String × FieldValue F => valueOfField kv.2)
            ++ [Value.string (tsFmt ts)]], true)
      ∧ ((tgs.map fun kv : String × String => valueOfTag (F := F) kv.2)
          ++ (flds.map fun kv : String × FieldValue F => valueOfField kv.2)
          ++ [Value.string (tsFmt ts)]).length
        = tgs.length + flds.length + 1 := by
  constructor
  · simp [toCsvRun, rowOfLine, pointCells, hp]
  · simp
    omega

/-- Witness for C3 at a concrete decoded point. -/
theorem c3_witness :
    sampleParse "x" = [Except.ok ⟨"cpu", some [("host", "h0")],
        [("u", FieldValue.i64 58)], some 0⟩]
      ∧ toCsvRun (fun _ => "T") sampleParse ["x"]
        = ([[Value.string "h0", Value.int64 58, Value.string "T"]], true) := by
  refine ⟨rfl, ?_⟩
  have h := c3_row_shape (F := Unit) (E := Unit) (fun _ => "T") sampleParse
    "x" "cpu" [("host", "h0")] [("u", FieldValue.i64 58)] 0 rfl
  exact h.1

/-- C4: the Int64 field `usage_user=58i` becomes the CSV cell `58`, and
feeding that cell back through the CSV→Line field rendering yields the
token `usage_user=58` — no `i` suffix, so the round trip does not
preserve the integer/float distinction. -/
theorem c4_int_suffix_lost {F : Type} (fmtF : F → String)
    (ff : String → Option String) (hff : ff "58" = some "58") :
    Value.toCell fmtF (valueOfField (F := F) (FieldValue.i64 58)) = "58"
      ∧ fieldTok ff ("usage_user", "58") = "usage_user=58"
      ∧ ("usage_user=58" : String) ≠ "usage_user=58i" := by
  refine ⟨rfl, ?_, by decide⟩
  simp [fieldTok, hff]

/-- Witness for C4: the abstract float formatter instantiated on the
digit string `58`. -/
theorem c4_witness :
    intFloatFmt "58" = some "58"
      ∧ (Value.toCell (fun _ : Unit => "")
            (valueOfField (FieldValue.i64 58)) = "58"
          ∧ fieldTok intFloatFmt ("usage_user", "58") = "usage_user=58"
          ∧ ("usage_user=58" : String) ≠ "usage_user=58i") :=
  ⟨by decide, c4_int_suffix_lost (fun _ : Unit => "") intFloatFmt (by decide)⟩

/-- C6: when every physical line before `bad` decodes cleanly and
`bad`'s parse results contain an error, the whole run fails, its output
is exactly the records of the lines before `bad`, and no record for
`bad` or any later line is produced. -/
theorem c6_first_error_aborts {F E : Type} (tsFmt : Int → String)
    (parse : String → List (Except E (Point F)))
    (pre post : List String) (bad : String) (e : E)
    (hpre : ∀ l ∈ pre, rowOfLine tsFmt (parse l) ≠ none)
    (hbad : Except.error e ∈ parse bad) :
    toCsvRun tsFmt parse (pre ++ bad :: post)
      = ((toCsvRun tsFmt parse pre).1, false) := by
  induction pre with
  | nil =>
    simp [toCsvRun, rowOfLine_none_of_mem_error tsFmt hbad]
  | cons l rest ih =>
    have hl := hpre l (List.mem_cons_self l rest)
    rcases hro : rowOfLine tsFmt (parse l) with _ | r
    · exact absurd hro hl
    · have ih' := ih (fun q hq => hpre q (List.mem_cons_of_mem l hq))
      simp [toCsvRun, hro, ih']

/-- Witness for C6: input `ok, bad, after` aborts at `bad` with only
the record of `ok` emitted. -/
theorem c6_witness :
    ((∀ l ∈ ["ok"], rowOfLine (fun _ => "") (parseOkOrErr l) ≠ none)
      ∧ Except.error () ∈ parseOkOrErr "bad")
      ∧ toCsvRun (fun _ => "") parseOkOrErr ["ok", "bad", "after"]
        = ([[]], false) := by
  have hpre : ∀ l ∈ ["ok"], rowOfLine (fun _ => "") (parseOkOrErr l) ≠ none := by
    intro l hl
    fin_cases hl
    simp [parseOkOrErr, rowOfLine]
  have hbad : Except.error () ∈ parseOkOrErr "bad" := by
    simp [parseOkOrErr]
  refine ⟨⟨hpre, hbad⟩, ?_⟩
  exact c6_first_error_aborts (fun _ => "") parseOkOrErr
    ["ok"] ["after"] "bad" () hpre hbad

/-- C7: when no column name equals the configured timestamp name, the
encoder raises no error and emits the line without a trailing timestamp
token — just measurement, tags and fields, unchanged. -/
theorem c7_missing_timestamp_column_omits_token
    (ff : String → Option String) (cfg : LineConfig) (t : String)
    (headers record : List String)
    (h : ∀ nm ∈ headers, nm ≠ cfg.timestamp) :
    buildLine ff cfg t headers record
      = some (lineLead ff cfg t (headers.zip record) ++ "\n") := by
  have hfind : (headers.zip record).find? (fun p => p.1 == cfg.timestamp)
      = none := by
    refine List.find?_eq_none.mpr fun p hp => ?_
    have := (List.of_mem_zip hp).1
    simp [h p.1 this]
  rw [buildLine, tsSegment, hfind]
  simp [String.append_empty]

/-- Witness for C7: a schema with no `timestamp` column converts
without error and without a timestamp token. -/
theorem c7_witness :
    (∀ nm ∈ ["host", "v"], nm ≠ "timestamp")
      ∧ buildLine intFloatFmt ⟨"timestamp", ["host"]⟩ "m" ["host", "v"]
          ["h0", "1"]
        = some (lineLead intFloatFmt ⟨"timestamp", ["host"]⟩ "m"
            (["host", "v"].zip ["h0", "1"]) ++ "\n") :=
  ⟨by decide,
    c7_missing_timestamp_column_omits_token intFloatFmt
      ⟨"timestamp", ["host"]⟩ "m" ["host", "v"] ["h0", "1"] (by decide)⟩

/-- C8: the directory converter sorts entry paths before converting, so
whichever order the filesystem lists `data/metric1.csv` and
`data/metric2.csv` in, the output equals the conversion of `metric1`
followed by the conversion of `metric2`, and every line of each file's
conversion starts with that file's measurement name. -/
theorem c8_directory_sorted_order (ff : String → Option String)
    (cfg : LineConfig) (content : String → List String × List (List String))
    (entries : List String)
    (h : entries = ["data/metric1.csv", "data/metric2.csv"]
      ∨ entries = ["data/metric2.csv", "data/metric1.csv"]) :
    from_csv_dir ff cfg content entries
        = processFiles ff cfg content ["data/metric1.csv", "data/metric2.csv"]
      ∧ fileStem "data/metric1.csv" = "metric1"
      ∧ fileStem "data/metric2.csv" = "metric2"
      ∧ (∀ ls l, from_csv_file ff cfg content "data/metric1.csv" = some ls →
          l ∈ ls → ∃ rest, l = "metric1" ++ rest)
      ∧ (∀ ls l, from_csv_file ff cfg content "data/metric2.csv" = some ls →
          l ∈ ls → ∃ rest, l = "metric2" ++ rest) := by
  refine ⟨?_, rfl, rfl, ?_, ?_⟩
  · rcases h with h | h <;> rw [h] <;> rfl
  · intro ls l hls hl
    rcases linesOfRecords_mem ff cfg (fileStem "data/metric1.csv")
      (content "data/metric1.csv").1 (content "data/metric1.csv").2 ls l
      hls hl with ⟨r, _, hr⟩
    exact buildLine_measurement_lead ff cfg _ _ _ hr
  · intro ls l hls hl
    rcases linesOfRecords_mem ff cfg (fileStem "data/metric2.csv")
      (content "data/metric2.csv").1 (content "data/metric2.csv").2 ls l
      hls hl with ⟨r, _, hr⟩
    exact buildLine_measurement_lead ff cfg _ _ _ hr

/-- Witness for C8: the two files listed in reverse order are still
converted metric1-first. -/
theorem c8_witness :
    ((["data/metric2.csv", "data/metric1.csv"] : List String)
        = ["data/metric1.csv", "data/metric2.csv"]
      ∨ (["data/metric2.csv", "data/metric1.csv"] : List String)
        = ["data/metric2.csv", "data/metric1.csv"])
      ∧ from_csv_dir intFloatFmt ⟨"timestamp", []⟩
          (fun _ => (["timestamp"], [["1"]]))
          ["data/metric2.csv", "data/metric1.csv"]
        = processFiles intFloatFmt ⟨"timestamp", []⟩
            (fun _ => (["timestamp"], [["1"]]))
            ["data/metric1.csv", "data/metric2.csv"] :=
  ⟨Or.inr rfl,
    (c8_directory_sorted_order intFloatFmt ⟨"timestamp", []⟩
      (fun _ => (["timestamp"], [["1"]]))
      ["data/metric2.csv", "data/metric1.csv"] (Or.inr rfl)).1⟩

/-- C9: exactly one CSV record is serialized per physical input line —
a line decoding to zero points yields one empty record, and a line
decoding to several points yields one record holding all their cells. -/
theorem c9_one_record_per_physical_line {F E : Type} (tsFmt : Int → String)
    (parse : String → List (Except E (Point F)))
    (pts : String → List (Point F)) (input : List String)
    (h : ∀ l ∈ input, parse l = (pts l).map Except.ok) :
    toCsvRun tsFmt parse input
      = (input.map fun l => ((pts l).map (pointCells tsFmt)).flatten,
          true) := by
  induction input with
  | nil => rfl
  | cons l rest ih =>
    have hl := h l (List.mem_cons_self l rest)
    have ih' := ih (fun q hq => h q (List.mem_cons_of_mem l hq))
    simp [toCsvRun, hl, rowOfLine_map_ok, ih']

/-- Witness for C9: a blank line and a two-point line produce exactly
one record each — an empty record and one collapsed record. -/
theorem c9_witness :
    (∀ l ∈ ["", "a"], parseTwoPoints l = (ptsTwoPoints l).map Except.ok)
      ∧ toCsvRun (fun _ => "") parseTwoPoints ["", "a"]
        = ([[], [Value.int64 1, Value.int64 2]], true) := by
  have hok : ∀ l ∈ ["", "a"],
      parseTwoPoints l = (ptsTwoPoints l).map Except.ok := by
    intro l hl
    fin_cases hl <;> rfl
  refine ⟨hok, ?_⟩
  exact c9_one_record_per_physical_line (fun _ => "") parseTwoPoints
    ptsTwoPoints ["", "a"] hok

/-- C10: the CSV→Line encoder copies tag names, tag values, field names
and string field values into the line verbatim — whatever spaces,
commas or equals signs they contain, no escaping or quoting is added
(string field values only gain the surrounding double quotes). -/
theorem c10_verbatim_no_escaping (ff : String → Option String)
    (tagName fname v fv : String)
    (h1 : tagName ≠ "timestamp") (h2 : fname ≠ "timestamp")
    (h3 : fname ≠ tagName) (hff : ff fv = none) :
    buildLine ff ⟨"timestamp", [tagName]⟩ "m"
        [tagName, fname, "timestamp"] [v, fv, "0"]
      = some ("m" ++ ("," ++ tagName ++ "=" ++ v ++ " " ++ fname ++ "=\""
          ++ fv ++ "\"" ++ " 0" ++ "\n")) := by
  have b1 : (tagName == "timestamp") = false := beq_eq_false_iff_ne.mpr h1
  have b2 : (fname == "timestamp") = false := beq_eq_false_iff_ne.mpr h2
  have hts : tsSegment ⟨"timestamp", [tagName]⟩
      ([tagName, fname, "timestamp"].zip [v, fv, "0"]) = some " 0" := by
    rw [tsSegment]
    norm_num [List.find?, b1, b2]
    exact ⟨0, rfl, rfl⟩
  rw [buildLine, hts]
  simp [lineLead, tagsPart, tagsAux, fieldsPart, fieldsAux, fieldTok,
    h3, Ne.symm h1, hff, bne, b2, String.append_assoc, String.append_empty,
    String.empty_append]

/-- Witness for C10: a tag value with a space, a comma and an equals
sign, and a field value with a space, all pass through unescaped. -/
theorem c10_witness :
    (("host" : String) ≠ "timestamp" ∧ ("val" : String) ≠ "timestamp"
        ∧ ("val" : String) ≠ "host"
        ∧ (fun _ : String => (none : Option String)) "x y" = none)
      ∧ buildLine (fun _ => none) ⟨"timestamp", ["host"]⟩ "m"
          ["host", "val", "timestamp"] ["a b,c=d", "x y", "0"]
        = some "m,host=a b,c=d val=\"x y\" 0\n" := by
  refine ⟨⟨by decide, by decide, by decide, rfl⟩, ?_⟩
  have h := c10_verbatim_no_escaping (fun _ => none) "host" "val"
    "a b,c=d" "x y" (by decide) (by decide) (by decide) rfl
  exact h.trans (by rfl)

end Influx
